import Mathlib

/-!
Shallow embedding of `src/commands/list.ts` (opentools-cli `list` command).

The command inventories MCP servers installed in two clients (Claude
Desktop, Continue) by reading each client's JSON config file and
reconciling the installed references against the registry `servers`
(imported from `../data/servers/index.js`; modelled here as an explicit
parameter, matching the spec's dependency-injection note).

File I/O and JSON parsing are abstracted into a `ReadOutcome`:
`absent` models `fs.readFile` failing with `ENOENT`, `ioError` models any
other read failure, `malformed` models `JSON.parse` throwing, and
`ok cfg` models a successfully parsed config of the given shape.
`JSON.stringify` equality on arrays of strings is modelled as list
equality (stringify is injective on well-formed string arrays).
-/

namespace OpenTools

/-- Canonical install configuration of a registry server: `{command, args}`. -/
structure ServerConfig where
  command : String
  args : List String
deriving DecidableEq

/-- One entry of the registry `servers` list: `{id, config}`. -/
structure RegistryServer where
  id : String
  config : ServerConfig
deriving DecidableEq

/-- The `transport` field of a Continue installed-server descriptor. -/
structure Transport where
  command : String
  args : List String
deriving DecidableEq

/-- One element of `config.experimental.modelContextProtocolServers`. -/
structure InstalledRef where
  transport : Transport
deriving DecidableEq

/-- Parsed shape of `claude_desktop_config.json`: only the keys of the
`mcpServers` object are used (`Object.keys`, in insertion order);
`none` models a missing `mcpServers` field (`config.mcpServers || {}`). -/
structure ClaudeConfig where
  mcpServers : Option (List String)
deriving DecidableEq

/-- The `experimental` object of Continue's `config.json`. -/
structure ContinueExperimental where
  modelContextProtocolServers : Option (List InstalledRef)
deriving DecidableEq

/-- Parsed shape of `~/.continue/config.json`. -/
structure ContinueConfig where
  experimental : Option ContinueExperimental
deriving DecidableEq

/-- Outcome of `fs.readFile` followed by `JSON.parse` on a config file. -/
inductive ReadOutcome (α : Type) where
  | absent : ReadOutcome α
  | ioError : ReadOutcome α
  | malformed : ReadOutcome α
  | ok (cfg : α) : ReadOutcome α
deriving DecidableEq

/-- The error surfaced when a config file is present but unreadable or
malformed (the rethrown non-ENOENT exception; `ConfigUnavailable` in the
spec's taxonomy). -/
inductive ConfigError where
  | configUnavailable : ConfigError
deriving DecidableEq

/-- One reported line: a server id plus whether it was found in the
registry (unrecognized entries are printed with the `(unknown)` suffix). -/
structure ReconciledEntry where
  serverId : String
  recognized : Bool
deriving DecidableEq

/-- What one inspector produces: the boolean it returns plus the ordered
entries it logs. -/
structure InspectResult where
  found : Bool
  entries : List ReconciledEntry
deriving DecidableEq

/-- `Object.keys(config.mcpServers || {})`. -/
def claudeInstalledServers (cfg : ClaudeConfig) : List String :=
  cfg.mcpServers.getD []

/-- `installedServers.filter(id => servers.some(s => s.id === id))`. -/
def registeredServers (servers : List RegistryServer) (installedServers : List String) :
    List String :=
  installedServers.filter (fun id => servers.any (fun s => s.id == id))

/-- `installedServers.filter(id => !servers.some(s => s.id === id))`. -/
def unknownServers (servers : List RegistryServer) (installedServers : List String) :
    List String :=
  installedServers.filter (fun id => !servers.any (fun s => s.id == id))

/-- The ordered lines logged by `listClaudeServers`: registered servers
first, then unknown servers. -/
def claudeEntries (servers : List RegistryServer) (installedServers : List String) :
    List ReconciledEntry :=
  (registeredServers servers installedServers).map (fun id => ⟨id, true⟩) ++
    (unknownServers servers installedServers).map (fun id => ⟨id, false⟩)

/-- `listClaudeServers`: ENOENT yields `false` with no output; any other
read/parse failure is rethrown; otherwise keys of `mcpServers` are split
into registered and unknown and logged, returning whether any existed. -/
def listClaudeServers (servers : List RegistryServer) (file : ReadOutcome ClaudeConfig) :
    Except ConfigError InspectResult :=
  match file with
  | .absent => .ok ⟨false, []⟩
  | .ioError => .error .configUnavailable
  | .malformed => .error .configUnavailable
  | .ok cfg =>
    let installedServers := claudeInstalledServers cfg
    if installedServers.length > 0 then
      .ok ⟨true, claudeEntries servers installedServers⟩
    else
      .ok ⟨false, []⟩

/-- The predicate inside `installedServers.some(...)` in
`listContinueServers`: command equality plus
`JSON.stringify(installed.transport.args.slice(0, registryServer.config.args.length))
=== JSON.stringify(registryServer.config.args)`. -/
def structuralMatch (registryServer : RegistryServer) (installed : InstalledRef) : Bool :=
  installed.transport.command == registryServer.config.command &&
    installed.transport.args.take registryServer.config.args.length ==
      registryServer.config.args

/-- `config.experimental?.modelContextProtocolServers || []`. -/
def continueInstalledServers (cfg : ContinueConfig) : List InstalledRef :=
  (cfg.experimental.bind (fun e => e.modelContextProtocolServers)).getD []

/-- `validServers`: the registry entries some installed reference
structurally matches, mapped to their ids (in registry order, since the
code filters the registry list). -/
def continueValidServers (servers : List RegistryServer)
    (installedServers : List InstalledRef) : List String :=
  (servers.filter (fun registryServer =>
    installedServers.any (fun installed => structuralMatch registryServer installed))).map
    (fun s => s.id)

/-- The ordered lines logged by `listContinueServers` (all recognized). -/
def continueEntries (servers : List RegistryServer)
    (installedServers : List InstalledRef) : List ReconciledEntry :=
  (continueValidServers servers installedServers).map (fun id => ⟨id, true⟩)

/-- `listContinueServers`: ENOENT yields `false` with no output; any other
read/parse failure is rethrown; otherwise the structurally matched
registry ids are logged, returning whether any existed. -/
def listContinueServers (servers : List RegistryServer)
    (file : ReadOutcome ContinueConfig) : Except ConfigError InspectResult :=
  match file with
  | .absent => .ok ⟨false, []⟩
  | .ioError => .error .configUnavailable
  | .malformed => .error .configUnavailable
  | .ok cfg =>
    let validServers := continueValidServers servers (continueInstalledServers cfg)
    if validServers.length > 0 then
      .ok ⟨true, validServers.map (fun id => ⟨id, true⟩)⟩
    else
      .ok ⟨false, []⟩

/-- The `--client` flag: one of the two supported client kinds. -/
inductive ClientKind where
  | claude : ClientKind
  | continueClient : ClientKind
deriving DecidableEq

/-- The aggregate outcome of `run`: the lines each inspector logged plus
the final `foundServers` flag. -/
structure RunResult where
  claudeEntries : List ReconciledEntry
  continueEntries : List ReconciledEntry
  foundAny : Bool
deriving DecidableEq

/-- `.catch(() => false)`: an inspector failure is replaced by `false`
with no output (all throws happen before any logging). -/
def catchFalse (r : Except ConfigError InspectResult) : InspectResult :=
  match r with
  | .ok res => res
  | .error _ => ⟨false, []⟩

/-- The body of `run`: with `--client` set only that inspector runs and
its failure propagates; with no flag both run with errors ignored, and
`foundServers` is the disjunction of the returned booleans. -/
def run (flag : Option ClientKind) (servers : List RegistryServer)
    (claudeFile : ReadOutcome ClaudeConfig) (continueFile : ReadOutcome ContinueConfig) :
    Except ConfigError RunResult :=
  match flag with
  | some .claude =>
    match listClaudeServers servers claudeFile with
    | .error e => .error e
    | .ok r => .ok ⟨r.entries, [], r.found⟩
  | some .continueClient =>
    match listContinueServers servers continueFile with
    | .error e => .error e
    | .ok r => .ok ⟨[], r.entries, r.found⟩
  | none =>
    let rc := catchFalse (listClaudeServers servers claudeFile)
    let rk := catchFalse (listContinueServers servers continueFile)
    .ok ⟨rc.entries, rk.entries, rc.found || rk.found⟩

/-- Modelled from the spec: the ids an order-preserving reconciliation of
Continue references would produce — each installed reference, in the
order it appears in the source file, mapped to the id of the first
registry entry it structurally matches (dropped when none matches).
Used only to compare the code's output order against the spec's claimed
source-file order. -/
def specContinueSourceOrder (servers : List RegistryServer)
    (installedServers : List InstalledRef) : List String :=
  installedServers.filterMap (fun installed =>
    (servers.find? (fun r => structuralMatch r installed)).map (fun r => r.id))

/-! Helper lemmas shared by the claim theorems. -/

/-- The Claude inspector's logged entries are empty exactly when the key
list is empty: every key lands in the registered or the unknown filter. -/
lemma claudeEntries_eq_nil_iff (servers : List RegistryServer)
    (installedServers : List String) :
    claudeEntries servers installedServers = [] ↔ installedServers = [] := by
  cases installedServers with
  | nil => simp [claudeEntries, registeredServers, unknownServers]
  | cons a t =>
    by_cases h : (servers.any (fun s => s.id == a)) = true <;>
      simp [claudeEntries, registeredServers, unknownServers, List.filter_cons, h]

/-- A successful Claude inspection returns `true` iff it logged entries. -/
lemma listClaudeServers_found_iff (servers : List RegistryServer)
    (file : ReadOutcome ClaudeConfig) (r : InspectResult)
    (h : listClaudeServers servers file = Except.ok r) :
    r.found = true ↔ r.entries ≠ [] := by
  cases file with
  | absent => cases h; simp
  | ioError => cases h
  | malformed => cases h
  | ok cfg =>
    simp only [listClaudeServers] at h
    split at h <;> cases h
    · rename_i hl
      simp only [ne_eq, claudeEntries_eq_nil_iff]
      constructor
      · intro _ hnil
        rw [hnil] at hl
        simp at hl
      · intro _
        trivial
    · simp

/-- A successful Continue inspection returns `true` iff it logged entries. -/
lemma listContinueServers_found_iff (servers : List RegistryServer)
    (file : ReadOutcome ContinueConfig) (r : InspectResult)
    (h : listContinueServers servers file = Except.ok r) :
    r.found = true ↔ r.entries ≠ [] := by
  cases file with
  | absent => cases h; simp
  | ioError => cases h
  | malformed => cases h
  | ok cfg =>
    simp only [listContinueServers] at h
    split at h <;> cases h
    · rename_i hl
      constructor
      · intro _
        simp only [ne_eq, List.map_eq_nil_iff]
        intro hnil
        rw [hnil] at hl
        simp at hl
      · intro _
        rfl
    · simp

/-- `catchFalse` preserves the found-iff-nonempty property for Claude. -/
lemma catchFalse_claude_found_iff (servers : List RegistryServer)
    (file : ReadOutcome ClaudeConfig) :
    (catchFalse (listClaudeServers servers file)).found = true ↔
      (catchFalse (listClaudeServers servers file)).entries ≠ [] := by
  cases hf : listClaudeServers servers file with
  | ok r => simpa [catchFalse] using listClaudeServers_found_iff servers file r hf
  | error e => simp [catchFalse]

/-- `catchFalse` preserves the found-iff-nonempty property for Continue. -/
lemma catchFalse_continue_found_iff (servers : List RegistryServer)
    (file : ReadOutcome ContinueConfig) :
    (catchFalse (listContinueServers servers file)).found = true ↔
      (catchFalse (listContinueServers servers file)).entries ≠ [] := by
  cases hf : listContinueServers servers file with
  | ok r => simpa [catchFalse] using listContinueServers_found_iff servers file r hf
  | error e => simp [catchFalse]

/-- C1: Structural-prefix reconciliation: a Continue reference matches a
registry server iff the commands are equal and the reference's argument
sequence, truncated to the template length, equals the template;
appending extra arguments past the template preserves the match, and a
mismatch at any index within the template length breaks it even when the
command matches. -/
theorem structuralMatch_spec :
    (∀ (r : RegistryServer) (i : InstalledRef),
      structuralMatch r i = true ↔
        (i.transport.command = r.config.command ∧
          i.transport.args.take r.config.args.length = r.config.args)) ∧
    (∀ (r : RegistryServer) (extra : List String),
      structuralMatch r ⟨⟨r.config.command, r.config.args ++ extra⟩⟩ = true) ∧
    (∀ (r : RegistryServer) (i : InstalledRef) (k : Nat),
      k < r.config.args.length → k < i.transport.args.length →
      i.transport.args.getD k "" ≠ r.config.args.getD k "" →
      structuralMatch r i = false) := by
  refine ⟨fun r i => ?_, fun r extra => ?_, fun r i k hk hki hne => ?_⟩
  · simp [structuralMatch]
  · simp [structuralMatch]
  · rw [← Bool.not_eq_true]
    intro hm
    have h2 : i.transport.args.take r.config.args.length = r.config.args := by
      simp [structuralMatch] at hm
      exact hm.2
    have h3 := congrArg (fun l => l[k]?) h2
    simp only [List.getElem?_take] at h3
    rw [if_pos hk] at h3
    apply hne
    rw [List.getD_eq_getElem?_getD, List.getD_eq_getElem?_getD, h3]

/-- Witness for C1 at concrete inputs: extra trailing argument still
matches; a mismatch at index 0 does not. -/
theorem structuralMatch_spec_witness :
    structuralMatch ⟨"fs", ⟨"npx", ["-y", "fs-server"]⟩⟩
        ⟨⟨"npx", ["-y", "fs-server", "--verbose"]⟩⟩ = true ∧
    (0 < (["-y", "fs-server"] : List String).length ∧
      0 < (["-z", "fs-server"] : List String).length ∧
      structuralMatch ⟨"fs", ⟨"npx", ["-y", "fs-server"]⟩⟩
        ⟨⟨"npx", ["-z", "fs-server"]⟩⟩ = false) := by
  refine ⟨?_, by decide, by decide, ?_⟩
  · exact structuralMatch_spec.2.1 ⟨"fs", ⟨"npx", ["-y", "fs-server"]⟩⟩ ["--verbose"]
  · exact structuralMatch_spec.2.2 ⟨"fs", ⟨"npx", ["-y", "fs-server"]⟩⟩
      ⟨⟨"npx", ["-z", "fs-server"]⟩⟩ 0 (by decide) (by decide) (by decide)

/-- C2: Exact-key reconciliation: an installed key is reported as
registered iff some registry server has that id, and as unknown iff no
registry server has that id. -/
theorem claude_exact_key_spec (servers : List RegistryServer)
    (installedServers : List String) (x : String) (hx : x ∈ installedServers) :
    (x ∈ registeredServers servers installedServers ↔ ∃ r ∈ servers, r.id = x) ∧
    (x ∈ unknownServers servers installedServers ↔ ¬ ∃ r ∈ servers, r.id = x) := by
  constructor
  · simp [registeredServers, List.mem_filter, hx]
  · simp [unknownServers, List.mem_filter, hx]

/-- Witness for C2: with registry `[fs]` and keys `[fs, ghost]`, the key
`fs` is registered because `fs` is a registry id. -/
theorem claude_exact_key_spec_witness :
    ("fs" : String) ∈ ["fs", "ghost"] ∧
    (("fs" ∈ registeredServers [⟨"fs", ⟨"npx", []⟩⟩] ["fs", "ghost"] ↔
        ∃ r ∈ ([⟨"fs", ⟨"npx", []⟩⟩] : List RegistryServer), r.id = "fs") ∧
      ("fs" ∈ unknownServers [⟨"fs", ⟨"npx", []⟩⟩] ["fs", "ghost"] ↔
        ¬ ∃ r ∈ ([⟨"fs", ⟨"npx", []⟩⟩] : List RegistryServer), r.id = "fs")) :=
  ⟨by decide, claude_exact_key_spec [⟨"fs", ⟨"npx", []⟩⟩] ["fs", "ghost"] "fs" (by decide)⟩

/-- C6: Absent-file property: for both client kinds, an `ENOENT` read
yields the empty result (`false`, no entries) and no error. -/
theorem absent_file_spec :
    (∀ servers : List RegistryServer,
      listClaudeServers servers ReadOutcome.absent = Except.ok ⟨false, []⟩) ∧
    (∀ servers : List RegistryServer,
      listContinueServers servers ReadOutcome.absent = Except.ok ⟨false, []⟩) :=
  ⟨fun _ => rfl, fun _ => rfl⟩

/-- C3 counterexample: for Continue, with registry ids `["a", "b"]` and
installed references that match them in the opposite order, the code
outputs registry order `["a", "b"]` while the source-file order of the
references is `["b", "a"]`. -/
theorem list_order_counterexample :
    continueValidServers [⟨"a", ⟨"x", []⟩⟩, ⟨"b", ⟨"y", []⟩⟩]
        [⟨⟨"y", []⟩⟩, ⟨⟨"x", []⟩⟩] = ["a", "b"] ∧
    specContinueSourceOrder [⟨"a", ⟨"x", []⟩⟩, ⟨"b", ⟨"y", []⟩⟩]
        [⟨⟨"y", []⟩⟩, ⟨⟨"x", []⟩⟩] = ["b", "a"] ∧
    (["a", "b"] : List String) ≠ ["b", "a"] := by
  refine ⟨by decide, by decide, by decide⟩

/-- C3 amended: the Claude inspector lists every recognized entry before
every unrecognized one (the output is its recognized part followed by
its unrecognized part) and preserves the source-file order within each
class (registered and unknown are order-preserving sublists of the key
list); the Continue inspector returns entries in registry order — an
order-preserving sublist of the registry's id sequence — not in
source-file order. -/
theorem list_order_amended :
    (∀ (servers : List RegistryServer) (installedServers : List String),
      claudeEntries servers installedServers =
        (claudeEntries servers installedServers).filter (fun e => e.recognized) ++
          (claudeEntries servers installedServers).filter (fun e => !e.recognized) ∧
      ((claudeEntries servers installedServers).filter (fun e => e.recognized)).map
          (fun e => e.serverId) = registeredServers servers installedServers ∧
      ((claudeEntries servers installedServers).filter (fun e => !e.recognized)).map
          (fun e => e.serverId) = unknownServers servers installedServers ∧
      (registeredServers servers installedServers).Sublist installedServers ∧
      (unknownServers servers installedServers).Sublist installedServers) ∧
    (∀ (servers : List RegistryServer) (installedServers : List InstalledRef),
      (continueValidServers servers installedServers).Sublist
        (servers.map (fun r => r.id))) := by
  constructor
  · intro servers installedServers
    refine ⟨?_, ?_, ?_, List.filter_sublist _, List.filter_sublist _⟩
    · simp [claudeEntries, List.filter_append, List.filter_map, Function.comp_def]
    · simp [claudeEntries, List.filter_append, List.filter_map, Function.comp_def]
    · simp [claudeEntries, List.filter_append, List.filter_map, Function.comp_def]
  · intro servers installedServers
    exact (List.filter_sublist _).map _

/-- C4 counterexample: a single installed reference that structurally
matches two registry servers contributes two entries, not one. -/
theorem continue_first_match_counterexample :
    ([⟨⟨"x", []⟩⟩] : List InstalledRef).length = 1 ∧
    continueValidServers [⟨"a", ⟨"x", []⟩⟩, ⟨"b", ⟨"x", []⟩⟩]
        [⟨⟨"x", []⟩⟩] = ["a", "b"] ∧
    (["a", "b"] : List String).length ≠ 1 := by
  refine ⟨rfl, by decide, by decide⟩

/-- C4 amended: every registry server structurally matched by some
installed reference contributes its own entry, so a single reference can
contribute one entry per matching registry server (in registry order). -/
theorem continue_all_matches_amended (servers : List RegistryServer)
    (installedServers : List InstalledRef) (r : RegistryServer)
    (hr : r ∈ servers) (hm : ∃ i ∈ installedServers, structuralMatch r i = true) :
    r.id ∈ continueValidServers servers installedServers := by
  simp only [continueValidServers, List.mem_map, List.mem_filter]
  refine ⟨r, ⟨hr, ?_⟩, rfl⟩
  rw [List.any_eq_true]
  exact hm

/-- Witness for C4 amended: the second of two matching registry servers
is also in the output. -/
theorem continue_all_matches_amended_witness :
    ((⟨"b", ⟨"x", []⟩⟩ : RegistryServer) ∈
        ([⟨"a", ⟨"x", []⟩⟩, ⟨"b", ⟨"x", []⟩⟩] : List RegistryServer)) ∧
    (∃ i ∈ ([⟨⟨"x", []⟩⟩] : List InstalledRef),
        structuralMatch ⟨"b", ⟨"x", []⟩⟩ i = true) ∧
    "b" ∈ continueValidServers [⟨"a", ⟨"x", []⟩⟩, ⟨"b", ⟨"x", []⟩⟩] [⟨⟨"x", []⟩⟩] :=
  ⟨by decide, ⟨⟨⟨"x", []⟩⟩, by decide, by decide⟩,
    continue_all_matches_amended _ _ ⟨"b", ⟨"x", []⟩⟩ (by decide)
      ⟨⟨⟨"x", []⟩⟩, by decide, by decide⟩⟩

/-- C5: Asymmetric handling of unmatched references: a Claude key with no
registry match still appears in the output flagged unrecognized, while a
Continue reference with no structural match changes nothing in the
output (it is silently discarded, and alone yields an empty output). -/
theorem unmatched_reference_spec :
    (∀ (servers : List RegistryServer) (installedServers : List String) (x : String),
      x ∈ installedServers → (¬ ∃ r ∈ servers, r.id = x) →
      (⟨x, false⟩ : ReconciledEntry) ∈ claudeEntries servers installedServers) ∧
    (∀ (servers : List RegistryServer) (installedServers : List InstalledRef)
        (i : InstalledRef),
      (∀ r ∈ servers, structuralMatch r i = false) →
      continueValidServers servers (i :: installedServers) =
        continueValidServers servers installedServers ∧
      continueValidServers servers [i] = []) := by
  constructor
  · intro servers installedServers x hx hno
    simp only [claudeEntries, List.mem_append, List.mem_map]
    refine Or.inr ⟨x, ?_, rfl⟩
    simp only [unknownServers, List.mem_filter]
    refine ⟨hx, ?_⟩
    simpa using hno
  · intro servers installedServers i hno
    constructor
    · unfold continueValidServers
      congr 1
      apply List.filter_congr
      intro r hr
      simp [List.any_cons, hno r hr]
    · simp only [continueValidServers, List.map_eq_nil_iff, List.filter_eq_nil_iff]
      intro r hr
      simp [hno r hr]

/-- Witness for C5: unmatched key `ghost` is reported unrecognized by
Claude; an unmatched Continue reference contributes nothing. -/
theorem unmatched_reference_spec_witness :
    (("ghost" : String) ∈ ["ghost"] ∧
      (¬ ∃ r ∈ ([⟨"fs", ⟨"npx", []⟩⟩] : List RegistryServer), r.id = "ghost") ∧
      (⟨"ghost", false⟩ : ReconciledEntry) ∈
        claudeEntries [⟨"fs", ⟨"npx", []⟩⟩] ["ghost"]) ∧
    ((∀ r ∈ ([⟨"fs", ⟨"npx", []⟩⟩] : List RegistryServer),
        structuralMatch r ⟨⟨"other", []⟩⟩ = false) ∧
      continueValidServers [⟨"fs", ⟨"npx", []⟩⟩] [⟨⟨"other", []⟩⟩] =
        continueValidServers [⟨"fs", ⟨"npx", []⟩⟩] [] ∧
      continueValidServers [⟨"fs", ⟨"npx", []⟩⟩] [⟨⟨"other", []⟩⟩] = []) :=
  ⟨⟨by decide, by decide,
      unmatched_reference_spec.1 [⟨"fs", ⟨"npx", []⟩⟩] ["ghost"] "ghost"
        (by decide) (by decide)⟩,
    ⟨by decide,
      (unmatched_reference_spec.2 [⟨"fs", ⟨"npx", []⟩⟩] [] ⟨⟨"other", []⟩⟩
        (by decide)).1,
      (unmatched_reference_spec.2 [⟨"fs", ⟨"npx", []⟩⟩] [] ⟨⟨"other", []⟩⟩
        (by decide)).2⟩⟩

/-- C7: When a specific client is selected and its config file is present
but unreadable or malformed, `run` fails with the propagated error
instead of returning a result. -/
theorem selected_client_failure_spec (servers : List RegistryServer)
    (claudeFile : ReadOutcome ClaudeConfig) (continueFile : ReadOutcome ContinueConfig) :
    ((claudeFile = .ioError ∨ claudeFile = .malformed) →
      run (some .claude) servers claudeFile continueFile =
        Except.error ConfigError.configUnavailable) ∧
    ((continueFile = .ioError ∨ continueFile = .malformed) →
      run (some .continueClient) servers claudeFile continueFile =
        Except.error ConfigError.configUnavailable) := by
  constructor
  · rintro (rfl | rfl) <;> rfl
  · rintro (rfl | rfl) <;> rfl

/-- Witness for C7: selecting Claude with a malformed Claude config makes
`run` fail with `configUnavailable`. -/
theorem selected_client_failure_spec_witness :
    ((ReadOutcome.malformed : ReadOutcome ClaudeConfig) = .ioError ∨
      (ReadOutcome.malformed : ReadOutcome ClaudeConfig) = .malformed) ∧
    run (some .claude) [] ReadOutcome.malformed ReadOutcome.absent =
      Except.error ConfigError.configUnavailable :=
  ⟨Or.inr rfl,
    (selected_client_failure_spec [] ReadOutcome.malformed ReadOutcome.absent).1
      (Or.inr rfl)⟩

/-- C8: With no client selected, `run` always succeeds, and a failing
inspector is treated exactly like an absent config file: the failure is
suppressed, that client contributes nothing, and the other client's
results are unchanged. -/
theorem all_mode_suppression_spec (servers : List RegistryServer)
    (claudeFile : ReadOutcome ClaudeConfig) (continueFile : ReadOutcome ContinueConfig) :
    (∃ res, run none servers claudeFile continueFile = Except.ok res) ∧
    ((claudeFile = .ioError ∨ claudeFile = .malformed) →
      run none servers claudeFile continueFile =
        run none servers ReadOutcome.absent continueFile) ∧
    ((continueFile = .ioError ∨ continueFile = .malformed) →
      run none servers claudeFile continueFile =
        run none servers claudeFile ReadOutcome.absent) := by
  refine ⟨⟨_, rfl⟩, ?_, ?_⟩
  · rintro (rfl | rfl) <;> rfl
  · rintro (rfl | rfl) <;> rfl

/-- Witness for C8: with no selection and a malformed Claude config, the
run behaves as if the Claude config were absent. -/
theorem all_mode_suppression_spec_witness :
    ((ReadOutcome.malformed : ReadOutcome ClaudeConfig) = .ioError ∨
      (ReadOutcome.malformed : ReadOutcome ClaudeConfig) = .malformed) ∧
    run none [] ReadOutcome.malformed ReadOutcome.absent =
      run none [] ReadOutcome.absent ReadOutcome.absent :=
  ⟨Or.inr rfl,
    (all_mode_suppression_spec [] ReadOutcome.malformed ReadOutcome.absent).2.1
      (Or.inr rfl)⟩

/-- C9: whenever `run` succeeds, `foundAny` is true iff at least one
invoked inspector produced a non-empty entry list (inspectors that were
not invoked, failed, or found nothing contribute empty entry lists). -/
theorem foundAny_spec (flag : Option ClientKind) (servers : List RegistryServer)
    (claudeFile : ReadOutcome ClaudeConfig) (continueFile : ReadOutcome ContinueConfig)
    (res : RunResult) (h : run flag servers claudeFile continueFile = Except.ok res) :
    res.foundAny = true ↔
      (res.claudeEntries ≠ [] ∨ res.continueEntries ≠ []) := by
  match flag with
  | none =>
    simp only [run] at h
    cases h
    simp only [Bool.or_eq_true]
    exact or_congr (catchFalse_claude_found_iff servers claudeFile)
      (catchFalse_continue_found_iff servers continueFile)
  | some .claude =>
    simp only [run] at h
    split at h
    · cases h
    · cases h
      rename_i r heq
      simpa using listClaudeServers_found_iff servers claudeFile r heq
  | some .continueClient =>
    simp only [run] at h
    split at h
    · cases h
    · cases h
      rename_i r heq
      simpa using listContinueServers_found_iff servers continueFile r heq

/-- Witness for C9: with both configs absent nothing is found and both
entry lists are empty. -/
theorem foundAny_spec_witness :
    run none [] ReadOutcome.absent ReadOutcome.absent =
      Except.ok ⟨[], [], false⟩ ∧
    ((⟨[], [], false⟩ : RunResult).foundAny = true ↔
      ((⟨[], [], false⟩ : RunResult).claudeEntries ≠ [] ∨
        (⟨[], [], false⟩ : RunResult).continueEntries ≠ [])) :=
  ⟨rfl, foundAny_spec none [] ReadOutcome.absent ReadOutcome.absent ⟨[], [], false⟩ rfl⟩

/-- C10: when registry ids are unique, the Continue output contains no
duplicate ids — several installed references matching the same registry
entry collapse to one entry — and its length is bounded by the number of
registry entries. -/
theorem continue_nodup_spec (servers : List RegistryServer)
    (installedServers : List InstalledRef)
    (hids : (servers.map (fun r => r.id)).Nodup) :
    (continueValidServers servers installedServers).Nodup ∧
    (continueValidServers servers installedServers).length ≤ servers.length := by
  have hsub : (continueValidServers servers installedServers).Sublist
      (servers.map (fun r => r.id)) := (List.filter_sublist _).map _
  refine ⟨hids.sublist hsub, ?_⟩
  calc (continueValidServers servers installedServers).length
      ≤ (servers.map (fun r => r.id)).length := hsub.length_le
    _ = servers.length := List.length_map _ _

/-- Witness for C10: two distinct references matching the single registry
entry `a` yield the duplicate-free output `["a"]` of length at most 1. -/
theorem continue_nodup_spec_witness :
    ((([⟨"a", ⟨"x", []⟩⟩] : List RegistryServer)).map (fun r => r.id)).Nodup ∧
    (continueValidServers [⟨"a", ⟨"x", []⟩⟩] [⟨⟨"x", []⟩⟩, ⟨⟨"x", ["f"]⟩⟩]).Nodup ∧
    (continueValidServers [⟨"a", ⟨"x", []⟩⟩]
      [⟨⟨"x", []⟩⟩, ⟨⟨"x", ["f"]⟩⟩]).length ≤ 1 :=
  ⟨by decide,
    (continue_nodup_spec [⟨"a", ⟨"x", []⟩⟩] [⟨⟨"x", []⟩⟩, ⟨⟨"x", ["f"]⟩⟩] (by decide)).1,
    (continue_nodup_spec [⟨"a", ⟨"x", []⟩⟩] [⟨⟨"x", []⟩⟩, ⟨⟨"x", ["f"]⟩⟩] (by decide)).2⟩

end OpenTools
